import Mathlib

set_option linter.unusedVariables false

/-!
Shallow embedding of the pasarguard/node agent core: the sing-box
configuration synchronizer (`backend/singbox`), the process supervisor
(`Core`), the backend facade (`SingBox`), and the controller's background
loops.  Go maps are modelled as association lists, `interface{}` JSON trees
as an inductive `Json` type, fallible calls as `Except`/`Outcome` values,
and external effects (running the executable, writing files, spawning the
subprocess) as explicit oracle parameters.
-/

/-- Generic JSON value, modelling the Go `interface{}` trees produced by
`encoding/json` unmarshalling.  Numbers are modelled as integers; no claim
in this development depends on numeric values. -/
inductive Json where
  | null
  | bool (b : Bool)
  | num (n : Int)
  | str (s : String)
  | arr (elems : List Json)
  | obj (fields : List (String × Json))

/-- A protocol account record: the Go `map[string]interface{}` built by
`Inbound.buildAccount`, modelled as an association list. -/
abbrev Account := List (String × Json)

/-- The identity key of an account: Go reads `user["name"].(string)`, which
yields `""` when the key is missing or not a string. -/
def accountName (a : Account) : String :=
  match a.lookup "name" with
  | some (Json.str s) => s
  | _ => ""

/-- Modelled from the spec: the `common` package (protobuf user messages) is
code of this repository not under src/.  Per the spec a user carries an
identity (email-like string), a set of inbound tags, and proxy-credential
variants (identifier + optional flow, password-only, password + cipher). -/
structure VmessSetting where
  id : String

/-- Modelled from the spec: vless credential (identifier + optional flow). -/
structure VlessSetting where
  id : String
  flow : String

/-- Modelled from the spec: trojan credential (password only). -/
structure TrojanSetting where
  password : String

/-- Modelled from the spec: shadowsocks credential (password + method). -/
structure ShadowsocksSetting where
  password : String
  method : String

/-- Modelled from the spec: the set of credential variants attached to a
user; each field is optional as in the generated protobuf message. -/
structure Proxies where
  vmess : Option VmessSetting
  vless : Option VlessSetting
  trojan : Option TrojanSetting
  shadowsocks : Option ShadowsocksSetting

/-- Modelled from the spec: a user entity.  A Go `*common.User` pointer is
an `Option User`; protobuf getters are nil-safe and return zero values on a
nil receiver, embedded below as total functions on `Option User`. -/
structure User where
  email : String
  inbounds : List String
  proxies : Option Proxies

/-- Nil-safe `GetEmail`. -/
def getEmail : Option User → String
  | some u => u.email
  | none => ""

/-- Nil-safe `GetInbounds`. -/
def getInbounds : Option User → List String
  | some u => u.inbounds
  | none => []

/-- Nil-safe `GetProxies`. -/
def getProxies : Option User → Option Proxies
  | some u => u.proxies
  | none => none

/-- Nil-safe `GetVmess`. -/
def getVmess : Option Proxies → Option VmessSetting
  | some p => p.vmess
  | none => none

/-- Nil-safe `GetVless`. -/
def getVless : Option Proxies → Option VlessSetting
  | some p => p.vless
  | none => none

/-- Nil-safe `GetTrojan`. -/
def getTrojan : Option Proxies → Option TrojanSetting
  | some p => p.trojan
  | none => none

/-- Nil-safe `GetShadowsocks`. -/
def getShadowsocks : Option Proxies → Option ShadowsocksSetting
  | some p => p.shadowsocks
  | none => none

/-- Embedding of `shouldAttachUser` (log.go:290-301): nil users never
attach; a user attaches when its inbound list is non-empty and contains
the inbound's tag. -/
def shouldAttachUser (user : Option User) (inboundTag : String) : Bool :=
  match user with
  | none => false
  | some _ =>
    let inbounds := getInbounds user
    if inbounds.length == 0 then false
    else inbounds.contains inboundTag

/-- The dynamic value stored under an inbound's `"users"` key.  In Go this
is `interface{}`: either the value still carried over from the parsed
document, or a `[]map[string]interface{}` written back by the
synchronizer's own operations. -/
inductive UsersVal where
  | fromDoc (j : Json)
  | stored (l : List Account)

/-- Embedding of `Inbound.ensureUsersLocked` (log.go:268-288): an already
written `[]map[string]interface{}` is used as is; a document
`[]interface{}` is converted by keeping only its object entries; any other
value is replaced with the empty list. -/
def ensureUsersLocked : UsersVal → List Account
  | UsersVal.stored l => l
  | UsersVal.fromDoc (Json.arr xs) =>
    xs.filterMap (fun j => match j with | Json.obj f => some f | _ => none)
  | UsersVal.fromDoc _ => []

/-- Embedding of the `Inbound` record (log.go:46-52).  The mutable
`raw["users"]` entry is carried in `users`; the remaining raw fields (after
sanitization) in `rest`. -/
structure Inbound where
  tag : String
  protocol : String
  exclude : Bool
  users : UsersVal
  rest : List (String × Json)

/-- Embedding of `Inbound.setUsers` (log.go:232-239). -/
def Inbound.setUsers (i : Inbound) (accounts : List Account) : Inbound :=
  { i with users := UsersVal.stored accounts }

/-- Embedding of `Inbound.appendUser` (log.go:241-251). -/
def Inbound.appendUser (i : Inbound) (account : Account) : Inbound :=
  { i with users := UsersVal.stored (ensureUsersLocked i.users ++ [account]) }

/-- Embedding of `Inbound.removeUser` (log.go:253-266): keep every account
whose `"name"` string differs from the email. -/
def Inbound.removeUser (i : Inbound) (email : String) : Inbound :=
  { i with users :=
      UsersVal.stored ((ensureUsersLocked i.users).filter (fun u => !(accountName u == email))) }

/-- Embedding of `Inbound.buildAccount` (log.go:187-230).  `enc` stands for
`common.EnsureBase64Password` (modelled from the spec: the shadowsocks
password normalization lives in the `common` package, not under src/; the
claims hold for every normalization function, so it is a parameter). -/
def Inbound.buildAccount (enc : String → String → String) (i : Inbound)
    (user : Option User) : Option Account :=
  let proxies := getProxies user
  let email := getEmail user
  match i.protocol with
  | "vmess" =>
    match getVmess proxies with
    | some vmess => some [("name", Json.str email), ("uuid", Json.str vmess.id)]
    | none => none
  | "vless" =>
    match getVless proxies with
    | some vless =>
      if vless.flow == "" then
        some [("name", Json.str email), ("uuid", Json.str vless.id)]
      else
        some [("name", Json.str email), ("uuid", Json.str vless.id),
              ("flow", Json.str vless.flow)]
    | none => none
  | "trojan" =>
    match getTrojan proxies with
    | some trojan => some [("name", Json.str email), ("password", Json.str trojan.password)]
    | none => none
  | "shadowsocks" =>
    match getShadowsocks proxies with
    | some ss => some [("name", Json.str email),
                       ("password", Json.str (enc ss.password ss.method)),
                       ("method", Json.str ss.method)]
    | none => none
  | _ => none

/-- Embedding of `Inbound.syncUsers` (log.go:157-168): rebuild the account
list from scratch, one account per user that attaches and whose
`buildAccount` is non-nil, then replace wholesale. -/
def Inbound.syncUsers (enc : String → String → String) (i : Inbound)
    (users : List (Option User)) : Inbound :=
  i.setUsers (users.filterMap (fun user =>
    if shouldAttachUser user i.tag then i.buildAccount enc user else none))

/-- Embedding of `Inbound.upsertUser` (log.go:170-185): excluded inbounds
return immediately; otherwise remove the user's account by email, then
append a fresh account when the user attaches and the build succeeds. -/
def Inbound.upsertUser (enc : String → String → String) (i : Inbound)
    (user : Option User) : Inbound :=
  if i.exclude then i
  else
    let email := getEmail user
    let i1 := i.removeUser email
    if shouldAttachUser user i1.tag then
      match i1.buildAccount enc user with
      | some account => i1.appendUser account
      | none => i1
    else i1

/-- Embedding of the `Config` record (log.go:41-44). -/
structure Config where
  raw : List (String × Json)
  inbounds : List Inbound

/-- Embedding of `Config.syncUsers` (log.go:116-123): excluded inbounds
are skipped entirely. -/
def Config.syncUsers (enc : String → String → String) (c : Config)
    (users : List (Option User)) : Config :=
  { c with inbounds := c.inbounds.map (fun inbound =>
      if inbound.exclude then inbound else inbound.syncUsers enc users) }

/-- Embedding of `Config.upsertUser` (log.go:125-129): every inbound is
visited; the per-inbound operation itself bails out on excluded ones. -/
def Config.upsertUser (enc : String → String → String) (c : Config)
    (user : Option User) : Config :=
  { c with inbounds := c.inbounds.map (fun inbound => inbound.upsertUser enc user) }

/-- Delete a key from an association-list map. -/
def eraseField (fields : List (String × Json)) (key : String) : List (String × Json) :=
  fields.filter (fun f => !(f.1 == key))

/-- Embedding of `sanitizeInboundMap` (log.go:135-155): rename
`server`/`server_port` to `listen`/`listen_port` when the target keys are
absent, and drop `packet_encoding` unconditionally. -/
def sanitizeInboundMap (fields : List (String × Json)) : List (String × Json) :=
  let f1 :=
    match fields.lookup "server" with
    | some v =>
      eraseField (if (fields.lookup "listen").isSome then fields
                  else fields ++ [("listen", v)]) "server"
    | none => fields
  let f2 :=
    match f1.lookup "server_port" with
    | some v =>
      eraseField (if (f1.lookup "listen_port").isSome then f1
                  else f1 ++ [("listen_port", v)]) "server_port"
    | none => f1
  eraseField f2 "packet_encoding"

/-- Go's `v, _ := j.(string)` on an optional JSON value. -/
def asStringOr (j : Option Json) (dflt : String) : String :=
  match j with
  | some (Json.str s) => s
  | _ => dflt

/-- Embedding of the per-entry body of the `NewSingBoxConfig` loop
(log.go:79-111): non-object entries are skipped; `tag` defaults to `""`;
`protocol` is read from `"type"` with fallback to `"protocol"` when empty,
then lower-cased; a missing `"users"` key is initialized to the empty
account list. -/
def parseInbound (excludeSet : List String) (v : Json) : Option Inbound :=
  match v with
  | Json.obj fields =>
    let tag := asStringOr (fields.lookup "tag") ""
    let protoPrimary := asStringOr (fields.lookup "type") ""
    let protocol :=
      if protoPrimary == "" then asStringOr (fields.lookup "protocol") ""
      else protoPrimary
    let fields1 := sanitizeInboundMap fields
    let usersVal :=
      match fields1.lookup "users" with
      | some u => UsersVal.fromDoc u
      | none => UsersVal.stored []
    some { tag := tag
           protocol := protocol.toLower
           exclude := excludeSet.contains tag
           users := usersVal
           rest := eraseField fields1 "users" }
  | _ => none

/-- Construction errors of `NewSingBoxConfig` (log.go:54-67). -/
inductive ConfigError where
  | emptyConfig
  | unmarshalError
  | noInbounds
deriving DecidableEq

/-- Embedding of `NewSingBoxConfig` (log.go:54-114).  `parsed` is the
oracle result of `json.Unmarshal` into `map[string]interface{}` (`none`
covers both malformed JSON and a non-object top level). -/
def NewSingBoxConfig (config : String) (parsed : Option (List (String × Json)))
    (exclude : List String) : Except ConfigError Config :=
  if config.trim == "" then Except.error ConfigError.emptyConfig
  else
    match parsed with
    | none => Except.error ConfigError.unmarshalError
    | some raw =>
      match raw.lookup "inbounds" with
      | some (Json.arr inboundsAny) =>
        Except.ok { raw := raw, inbounds := inboundsAny.filterMap (parseInbound exclude) }
      | _ => Except.error ConfigError.noInbounds

/-- Spec-side definition (C1 wording): the user's inbound-membership set
includes the inbound's tag. -/
def specMember (user : Option User) (tag : String) : Bool :=
  (getInbounds user).contains tag

/-- Spec-side definition (C1 wording): the user's credential variant
matches the inbound's protocol family. -/
def specVariantMatches (protocol : String) (user : Option User) : Bool :=
  (protocol == "vmess" && (getVmess (getProxies user)).isSome) ||
  (protocol == "vless" && (getVless (getProxies user)).isSome) ||
  (protocol == "trojan" && (getTrojan (getProxies user)).isSome) ||
  (protocol == "shadowsocks" && (getShadowsocks (getProxies user)).isSome)

/-- Spec-side definition (C1 wording): the protocol-family account record
for one user, present exactly when the credential variant matches. -/
def specAccount (enc : String → String → String) (protocol : String)
    (user : Option User) : Option Account :=
  if protocol == "vmess" then
    (getVmess (getProxies user)).map (fun v =>
      [("name", Json.str (getEmail user)), ("uuid", Json.str v.id)])
  else if protocol == "vless" then
    (getVless (getProxies user)).map (fun v =>
      if v.flow == "" then
        [("name", Json.str (getEmail user)), ("uuid", Json.str v.id)]
      else
        [("name", Json.str (getEmail user)), ("uuid", Json.str v.id),
         ("flow", Json.str v.flow)])
  else if protocol == "trojan" then
    (getTrojan (getProxies user)).map (fun t =>
      [("name", Json.str (getEmail user)), ("password", Json.str t.password)])
  else if protocol == "shadowsocks" then
    (getShadowsocks (getProxies user)).map (fun s =>
      [("name", Json.str (getEmail user)),
       ("password", Json.str (enc s.password s.method)),
       ("method", Json.str s.method)])
  else none

/-- Take the maximal leading run of ASCII digits, returning it and the
remainder (the greedy behaviour of the regexp atom `\d+`, which never
backtracks here because a digit can never match the following `\.`). -/
def takeDigits : List Char → List Char × List Char
  | [] => ([], [])
  | c :: rest =>
    if c.isDigit then ((c :: (takeDigits rest).1), (takeDigits rest).2)
    else ([], c :: rest)

/-- Match the regexp `\d+\.\d+\.\d+` at the beginning of the input,
returning the matched characters. -/
def matchTriple (l : List Char) : Option (List Char) :=
  match takeDigits l with
  | (d1, '.' :: r2) =>
    if d1.isEmpty then none
    else
      match takeDigits r2 with
      | (d2, '.' :: r4) =>
        if d2.isEmpty then none
        else if ((takeDigits r4).1).isEmpty then none
        else some (d1 ++ '.' :: (d2 ++ '.' :: (takeDigits r4).1))
      | _ => none
  | _ => none

/-- Leftmost match: try `matchTriple` at every position, left to right. -/
def findTripleAux : List Char → Option (List Char)
  | [] => none
  | c :: rest =>
    match matchTriple (c :: rest) with
    | some m => some m
    | none => findTripleAux rest

/-- Embedding of `regexp.MustCompile((\d+\.\d+\.\d+)).FindString` used by
`Core.refreshVersion`: the first (leftmost) dotted-triple numeric substring,
or `none` when there is no match. -/
def findVersionTriple (s : String) : Option String :=
  (findTripleAux s.data).map (fun l => String.mk l)

/-- The whole character list has the shape `digits '.' digits '.' digits`. -/
def isDottedTriple (l : List Char) : Bool :=
  match takeDigits l with
  | (d1, '.' :: r2) =>
    !d1.isEmpty &&
      (match takeDigits r2 with
       | (d2, '.' :: r4) =>
         !d2.isEmpty && !((takeDigits r4).1).isEmpty && ((takeDigits r4).2).isEmpty
       | _ => false)
  | _ => false

/-- Embedding of `Core.refreshVersion` (part_002:49-64).  `runResult` is the
oracle outcome of running the executable with the `version` argument:
`Except.error` when the binary cannot be run, `Except.ok output` with the
combined stdout+stderr text otherwise. -/
def refreshVersion (runResult : Except String String) : Except String String :=
  match runResult with
  | Except.error e => Except.error e
  | Except.ok output =>
    match findVersionTriple output with
    | some m => Except.ok m
    | none => Except.ok output.trim

/-- A live subprocess handle: present exactly when the Go `exec.Cmd` has a
non-nil `Process`; `waited` models `ProcessState != nil` (exit reaped). -/
structure ProcHandle where
  pid : Nat
  waited : Bool
deriving DecidableEq

/-- Embedding of the supervisor state `Core` (part_002:19-30).  `configFile`
models the contents of `<configDir>/sing-box.json` on disk (identified with
the config it serializes); `hasCancel` models a non-nil `cancelFunc`. -/
structure Core where
  executablePath : String
  assetsPath : String
  configDir : String
  logBufferSize : Nat
  process : Option ProcHandle
  restarting : Bool
  hasCancel : Bool
  startTime : Nat
  version : String
  configFile : Option Config

/-- Embedding of `NewSingBoxCore` (part_002:32-47): version detection runs
first; a failure to execute the binary aborts construction. -/
def NewSingBoxCore (executablePath assetsPath configDir : String) (logBufferSize : Nat)
    (runResult : Except String String) : Except String Core :=
  match refreshVersion runResult with
  | Except.error e => Except.error e
  | Except.ok v =>
    Except.ok { executablePath := executablePath, assetsPath := assetsPath,
                configDir := configDir, logBufferSize := logBufferSize,
                process := none, restarting := false, hasCancel := false,
                startTime := 0, version := v, configFile := none }

/-- Error classes returned by supervisor operations (part_002). -/
inductive CoreError where
  | marshalError
  | writeError
  | alreadyRunning
  | pipeError
  | spawnError
  | alreadyRestarting
deriving DecidableEq

/-- Result of a call: normal return, error return, or a nil-pointer
dereference (a Go panic, distinguished from an error return). -/
inductive Outcome (ε : Type) where
  | ok
  | err (e : ε)
  | nilDeref
deriving DecidableEq

/-- Oracle outcomes of the external effects performed by `Core.Start`:
config serialization, the config-file write, pipe creation, and the
subprocess spawn, plus the clock reading for the start timestamp. -/
structure StartEnv where
  serializeOk : Bool
  writeOk : Bool
  pipesOk : Bool
  spawned : Option ProcHandle
  now : Nat

/-- Embedding of `Core.Start` (part_002:86-133): serialize and write the
config file FIRST, then (under the lock) fail when a live handle exists,
otherwise create pipes, spawn, and record handle/cancel-scope/start time. -/
def Core.Start (env : StartEnv) (c : Core) (cfg : Config) : Core × Outcome CoreError :=
  if !env.serializeOk then (c, Outcome.err CoreError.marshalError)
  else if !env.writeOk then (c, Outcome.err CoreError.writeError)
  else
    let c1 := { c with configFile := some cfg }
    if c1.process.isSome then (c1, Outcome.err CoreError.alreadyRunning)
    else if !env.pipesOk then (c1, Outcome.err CoreError.pipeError)
    else
      match env.spawned with
      | none => (c1, Outcome.err CoreError.spawnError)
      | some h =>
        ({ c1 with process := some h, hasCancel := true, startTime := env.now }, Outcome.ok)

/-- Embedding of `Core.Stop` (part_002:154-182): cancel the log scope, and
when a live handle exists kill/wait (best effort) and clear the handle. -/
def Core.Stop (c : Core) : Core :=
  let c1 := { c with hasCancel := false }
  match c1.process with
  | none => c1
  | some _ => { c1 with process := none }

/-- Embedding of `Core.Restart` (part_002:135-152), sequential view: the
in-flight guard is checked and set under the lock; the deferred clear runs
on every exit path of the body. -/
def Core.Restart (env : StartEnv) (c : Core) (cfg : Config) : Core × Outcome CoreError :=
  if c.restarting then (c, Outcome.err CoreError.alreadyRestarting)
  else
    let c1 := Core.Stop { c with restarting := true }
    let res := Core.Start env c1 cfg
    ({ res.1 with restarting := false }, res.2)

/-- Embedding of `Core.Started` (part_002:72-80). -/
def Core.Started (c : Core) : Bool :=
  match c.process with
  | none => false
  | some h => !h.waited

/-- Embedding of the `SingBox` backend facade (part_000:17-23). -/
structure SingBox where
  config : Config
  core : Option Core

/-- Facade-level errors. -/
inductive SyncError where
  | emptyUser
  | coreFailure (e : CoreError)
deriving DecidableEq

/-- Lift a supervisor outcome to a facade outcome. -/
def liftCore : Outcome CoreError → Outcome SyncError
  | Outcome.ok => Outcome.ok
  | Outcome.err e => Outcome.err (SyncError.coreFailure e)
  | Outcome.nilDeref => Outcome.nilDeref

/-- Embedding of `SingBox.Shutdown` (part_000:107-115): stop the core if
present, then clear the handle. -/
def SingBox.Shutdown (s : SingBox) : SingBox :=
  match s.core with
  | some c => { s with core := none }
  | none => s

/-- Embedding of `SingBox.Version` (part_000:78-85): guarded on a nil core. -/
def SingBox.Version (s : SingBox) : String :=
  match s.core with
  | none => ""
  | some c => c.version

/-- Embedding of `SingBox.Started` (part_000:87-94): guarded on a nil core. -/
def SingBox.Started (s : SingBox) : Bool :=
  match s.core with
  | none => false
  | some c => Core.Started c

/-- Embedding of `SingBox.SyncUser` (part_000:117-127): nil users are
rejected, then the config is upserted and `s.core.Restart` is invoked with
NO nil-core guard — a nil core is dereferenced (Go panic). -/
def SingBox.SyncUser (enc : String → String → String) (env : StartEnv)
    (s : SingBox) (user : Option User) : SingBox × Outcome SyncError :=
  match user with
  | none => (s, Outcome.err SyncError.emptyUser)
  | some _ =>
    let cfg := Config.upsertUser enc s.config user
    match s.core with
    | none => ({ s with config := cfg }, Outcome.nilDeref)
    | some core =>
      let res := Core.Restart env core cfg
      ({ s with config := cfg, core := some res.1 }, liftCore res.2)

/-- Embedding of `SingBox.SyncUsers` (part_000:129-135): no nil-user and no
nil-core guard; a nil core is dereferenced at the Restart call. -/
def SingBox.SyncUsers (enc : String → String → String) (env : StartEnv)
    (s : SingBox) (users : List (Option User)) : SingBox × Outcome SyncError :=
  let cfg := Config.syncUsers enc s.config users
  match s.core with
  | none => ({ s with config := cfg }, Outcome.nilDeref)
  | some core =>
    let res := Core.Restart env core cfg
    ({ s with config := cfg, core := some res.1 }, liftCore res.2)

/-- One observable effect of a background-loop iteration in the
controller. -/
inductive LoopEff where
  | cancelCheck
  | sampleSystemStats
  | storeSnapshot
  | tickWait (seconds : Nat)
deriving DecidableEq

/-- Embedding of the body of `Controller.recordSystemStats`
(controller.go:149-165): each iteration checks `ctx.Done()`, calls
`tools.GetSystemStats`, and stores the snapshot — with no timer wait. -/
def recordSystemStatsBody : List LoopEff :=
  [LoopEff.cancelCheck, LoopEff.sampleSystemStats, LoopEff.storeSnapshot]

/-- Embedding of the body of `Controller.keepAliveTracker`
(controller.go:128-147): each iteration blocks on a 5-second ticker before
checking the last-request timestamp. -/
def keepAliveTrackerBody : List LoopEff :=
  [LoopEff.tickWait 5, LoopEff.cancelCheck]

/-- Seconds of timer waiting contributed by one loop iteration: the delay
between two consecutive samplings. -/
def waitSeconds (body : List LoopEff) : Nat :=
  (body.map (fun e => match e with | LoopEff.tickWait s => s | _ => 0)).sum

/-- Phase of one `Core.Restart` invocation in the two-caller interleaving
model: `ready` = about to run the guarded check-and-set (part_002:136-142);
`stopping`/`starting` = about to run `Stop` resp. `Start`; `exiting` = about
to run the deferred flag clear; `done` = returned after the cycle;
`rejected` = returned the already-restarting error. -/
inductive RPhase where
  | ready
  | stopping
  | starting
  | exiting
  | done
  | rejected
deriving DecidableEq

/-- Cycle events observable in the interleaving model. -/
inductive REvent where
  | stopEvent (second : Bool)
  | startEvent (second : Bool)
deriving DecidableEq

/-- Shared state for two concurrent `Core.Restart` calls on one supervisor:
the in-flight flag, the phase of each caller, and the event log. -/
structure RSys where
  restarting : Bool
  ph0 : RPhase
  ph1 : RPhase
  events : List REvent
deriving DecidableEq

/-- Phase of caller `who`. -/
def phaseOf (s : RSys) (who : Bool) : RPhase :=
  if who then s.ph1 else s.ph0

/-- Replace the phase of caller `who`. -/
def setPhase (s : RSys) (who : Bool) (p : RPhase) : RSys :=
  if who then { s with ph1 := p } else { s with ph0 := p }

/-- One atomic step of caller `who`.  Each case corresponds to one
mutex-protected region of `Core.Restart` (part_002:135-152): the guarded
check-and-set, the `Stop`, the `Start`, and the deferred clear. -/
def rstep (who : Bool) (s : RSys) : RSys :=
  match phaseOf s who with
  | RPhase.ready =>
    if s.restarting then setPhase s who RPhase.rejected
    else { setPhase s who RPhase.stopping with restarting := true }
  | RPhase.stopping =>
    { setPhase s who RPhase.starting with events := s.events ++ [REvent.stopEvent who] }
  | RPhase.starting =>
    { setPhase s who RPhase.exiting with events := s.events ++ [REvent.startEvent who] }
  | RPhase.exiting =>
    { setPhase s who RPhase.done with restarting := false }
  | RPhase.done => s
  | RPhase.rejected => s

/-- Run a schedule (the sequence of which caller steps next). -/
def rrun (sched : List Bool) (s : RSys) : RSys :=
  sched.foldl (fun t w => rstep w t) s

/-- Both callers about to enter, flag clear, nothing logged. -/
def rinit : RSys :=
  { restarting := false, ph0 := RPhase.ready, ph1 := RPhase.ready, events := [] }

/-- A caller is inside the stop/start cycle (has passed the guard, has not
yet run the deferred clear). -/
def inCycle : RPhase → Bool
  | RPhase.stopping => true
  | RPhase.starting => true
  | RPhase.exiting => true
  | _ => false

/-- The in-flight-flag invariant: the flag is set exactly when some caller
is inside the cycle, and never are both inside. -/
def RInv (s : RSys) : Prop :=
  s.restarting = (inCycle s.ph0 || inCycle s.ph1) ∧
  ¬(inCycle s.ph0 = true ∧ inCycle s.ph1 = true)

/-- A concrete normalization function used to instantiate the `enc`
parameter in counterexamples and witnesses. -/
def encId : String → String → String := fun p _ => p

/-- A user with a vmess credential and membership in inbound `in1`. -/
def vmessUser : User :=
  { email := "a@x", inbounds := ["in1"],
    proxies := some { vmess := some { id := "UUID1" }, vless := none,
                      trojan := none, shadowsocks := none } }

/-- A document account whose identity is `vmessUser`'s email. -/
def staleAccount : Account := [("name", Json.str "a@x")]

/-- An excluded inbound whose document account list already contains an
account for `a@x`. -/
def exclInbound : Inbound :=
  { tag := "in1", protocol := "vmess", exclude := true,
    users := UsersVal.fromDoc (Json.arr [Json.obj staleAccount]), rest := [] }

/-- A parsed configuration holding only `exclInbound`. -/
def cfgExcl : Config := { raw := [], inbounds := [exclInbound] }

/-- A document account for a different identity `b@x`. -/
def dupAccount : Account := [("name", Json.str "b@x")]

/-- A non-excluded inbound whose document account list holds two accounts
with the same identity `b@x`. -/
def dupInbound : Inbound :=
  { tag := "in1", protocol := "vmess", exclude := false,
    users := UsersVal.fromDoc (Json.arr [Json.obj dupAccount, Json.obj dupAccount]),
    rest := [] }

/-- A parsed configuration holding only `dupInbound`. -/
def cfgDup : Config := { raw := [], inbounds := [dupInbound] }

/-- The account `UpsertUser` builds for `vmessUser` on a vmess inbound. -/
def upsertedAccount : Account := [("name", Json.str "a@x"), ("uuid", Json.str "UUID1")]

/-- `dupInbound` after one (or two) upserts of `vmessUser`. -/
def dupInboundAfter : Inbound :=
  { tag := "in1", protocol := "vmess", exclude := false,
    users := UsersVal.stored [dupAccount, dupAccount, upsertedAccount], rest := [] }

/-- A supervisor with a live subprocess handle and no config file yet. -/
def liveCore : Core :=
  { executablePath := "sing-box", assetsPath := "assets", configDir := "generated",
    logBufferSize := 10, process := some { pid := 7, waited := false },
    restarting := false, hasCancel := true, startTime := 3,
    version := "1.0.0", configFile := none }

/-- An environment where every external effect succeeds. -/
def okEnv : StartEnv :=
  { serializeOk := true, writeOk := true, pipesOk := true,
    spawned := some { pid := 9, waited := false }, now := 11 }

/-- An environment where the subprocess spawn fails. -/
def spawnFailEnv : StartEnv :=
  { serializeOk := true, writeOk := true, pipesOk := true, spawned := none, now := 11 }

/-- An empty parsed configuration. -/
def emptyCfg : Config := { raw := [], inbounds := [] }

/-- A supervisor with no live subprocess. -/
def idleCore : Core :=
  { executablePath := "sing-box", assetsPath := "assets", configDir := "generated",
    logBufferSize := 10, process := none, restarting := false, hasCancel := false,
    startTime := 0, version := "1.0.0", configFile := none }

/-- An interleaving state where caller 1 is mid-cycle (flag set) and
caller 0 is about to enter. -/
def inflightState : RSys :=
  { restarting := true, ph0 := RPhase.ready, ph1 := RPhase.stopping, events := [] }

theorem shouldAttachUser_eq_specMember (user : Option User) (tag : String) :
    shouldAttachUser user tag = specMember user tag := by
  cases user with
  | none => rfl
  | some u =>
    simp only [shouldAttachUser, specMember, getInbounds]
    cases h : u.inbounds with
    | nil => rfl
    | cons a l => simp [List.contains]

theorem buildAccount_eq_specAccount (enc : String → String → String)
    (i : Inbound) (user : Option User) :
    i.buildAccount enc user = specAccount enc i.protocol user := by
  unfold Inbound.buildAccount specAccount
  split
  · rename_i heq
    rw [heq]
    cases hv : getVmess (getProxies user) <;> simp [hv]
  · rename_i heq
    rw [heq]
    cases hv : getVless (getProxies user) with
    | none => simp [hv]
    | some v => rcases eq_or_ne v.flow "" with hf | hf <;> simp [hv, hf]
  · rename_i heq
    rw [heq]
    cases hv : getTrojan (getProxies user) <;> simp [hv]
  · rename_i heq
    rw [heq]
    cases hv : getShadowsocks (getProxies user) <;> simp [hv]
  · rename_i x h1 h2 h3 h4
    simp_all

theorem specAccount_isSome (enc : String → String → String) (p : String) (u : Option User) :
    (specAccount enc p u).isSome = specVariantMatches p u := by
  unfold specAccount specVariantMatches
  by_cases h1 : p = "vmess"
  · subst h1; simp
  · by_cases h2 : p = "vless"
    · subst h2; simp
    · by_cases h3 : p = "trojan"
      · subst h3; simp
      · by_cases h4 : p = "shadowsocks"
        · subst h4; simp
        · simp [h1, h2, h3, h4]

/-- Closed form of `Inbound.upsertUser` on a non-nil user: excluded inbounds
are untouched; otherwise the user's account is filtered out by email and a
fresh account is appended when the membership and the credential variant
allow one. -/
theorem upsertUser_inbound_eq (enc : String → String → String) (ib : Inbound) (user : User) :
    Inbound.upsertUser enc ib (some user) =
      if ib.exclude then ib
      else { ib with users := UsersVal.stored (
        ((ensureUsersLocked ib.users).filter (fun a => !(accountName a == user.email))) ++
         (if specMember (some user) ib.tag then
            (specAccount enc ib.protocol (some user)).toList else [])) } := by
  unfold Inbound.upsertUser
  cases hex : ib.exclude with
  | true => simp [hex]
  | false =>
    simp only [hex, Bool.false_eq_true, if_false,
      shouldAttachUser_eq_specMember, buildAccount_eq_specAccount,
      Inbound.removeUser, Inbound.appendUser, ensureUsersLocked, getEmail]
    cases hm : specMember (some user) ib.tag <;>
      cases ha : specAccount enc ib.protocol (some user) <;>
        simp [hm, ha, Option.toList]

/-- The account a successful `specAccount` builds always carries the user's
email as its `"name"` identity. -/
theorem accountName_specAccount (enc : String → String → String) (p : String)
    (user : User) (a : Account) (h : specAccount enc p (some user) = some a) :
    accountName a = user.email := by
  unfold specAccount at h
  split_ifs at h
  · rcases Option.map_eq_some'.mp h with ⟨v, hv, rfl⟩
    simp [accountName, List.lookup, getEmail]
  · rcases Option.map_eq_some'.mp h with ⟨v, hv, rfl⟩
    rcases eq_or_ne v.flow "" with hf | hf <;> simp [hf, accountName, List.lookup, getEmail]
  · rcases Option.map_eq_some'.mp h with ⟨v, hv, rfl⟩
    simp [accountName, List.lookup, getEmail]
  · rcases Option.map_eq_some'.mp h with ⟨v, hv, rfl⟩
    simp [accountName, List.lookup, getEmail]

/-- C1: for every user list and parsed configuration, after
`SyncUsers(users)` each non-excluded inbound's account list is rebuilt to
contain exactly one account per listed user whose inbound-membership set
includes that inbound's tag and whose credential variant matches the
inbound's protocol family (vmess/vless → identifier, trojan → password,
shadowsocks → password+method, witnessed by
`(specAccount …).isSome = specVariantMatches …`), while excluded inbounds
and the rest of the document are unchanged by the call. -/
theorem syncUsers_exactly_one_per_member (enc : String → String → String)
    (c : Config) (users : List (Option User)) :
    (Config.syncUsers enc c users).raw = c.raw ∧
    (Config.syncUsers enc c users).inbounds = c.inbounds.map (fun ib =>
      if ib.exclude then ib
      else { ib with users := UsersVal.stored (users.filterMap (fun u =>
        if specMember u ib.tag then specAccount enc ib.protocol u else none)) }) ∧
    (∀ p u, (specAccount enc p u).isSome = specVariantMatches p u) := by
  refine ⟨rfl, ?_, fun p u => specAccount_isSome enc p u⟩
  unfold Config.syncUsers
  simp only
  apply List.map_congr_left
  intro ib hmem
  cases hex : ib.exclude
  · have hlist : users.filterMap
        (fun u => if shouldAttachUser u ib.tag then ib.buildAccount enc u else none) =
      users.filterMap
        (fun u => if specMember u ib.tag then specAccount enc ib.protocol u else none) := by
      apply List.filterMap_congr
      intro u hu
      rw [shouldAttachUser_eq_specMember, buildAccount_eq_specAccount]
    simp [Inbound.syncUsers, Inbound.setUsers, hex, hlist]
  · simp [hex]

/-- C2 counterexample: `UpsertUser` does NOT remove a matching account from
an excluded inbound.  `cfgExcl` holds one excluded inbound whose document
account list contains an account named `a@x`; upserting the user with email
`a@x` leaves the configuration — stale account included — untouched. -/
theorem upsertUser_excluded_keeps_stale :
    Config.upsertUser encId cfgExcl (some vmessUser) = cfgExcl ∧
    (ensureUsersLocked exclInbound.users).filter
      (fun a => accountName a == getEmail (some vmessUser)) = [staleAccount] := by
  exact ⟨rfl, rfl⟩

/-- C2 (amended): `UpsertUser(u)` removes any existing account matching
`u`'s email from every NON-excluded inbound and appends a fresh account to
each non-excluded inbound whose tag is in `u`'s membership set (when the
credential variant matches); excluded inbounds are left untouched, so a
stale account for `u` can survive in an excluded inbound. -/
theorem upsertUser_amended (enc : String → String → String) (c : Config) (user : User) :
    (Config.upsertUser enc c (some user)).raw = c.raw ∧
    (Config.upsertUser enc c (some user)).inbounds = c.inbounds.map (fun ib =>
      if ib.exclude then ib
      else { ib with users := UsersVal.stored (
        ((ensureUsersLocked ib.users).filter (fun a => !(accountName a == user.email))) ++
         (if specMember (some user) ib.tag then
            (specAccount enc ib.protocol (some user)).toList else [])) }) := by
  refine ⟨rfl, ?_⟩
  unfold Config.upsertUser
  simp only
  apply List.map_congr_left
  intro ib hmem
  exact upsertUser_inbound_eq enc ib user

/-- The freshly appended account (if any) never survives the email filter,
since its identity is the user's email. -/
theorem optAccount_filter_nil (enc : String → String → String) (p : String)
    (user : User) (cond : Bool) :
    (if cond then (specAccount enc p (some user)).toList else []).filter
      (fun a => !(accountName a == user.email)) = [] := by
  cases cond with
  | false => simp
  | true =>
    cases ha : specAccount enc p (some user) with
    | none => simp
    | some a =>
      have hn := accountName_specAccount enc p user a ha
      simp [Option.toList, hn]

/-- One `UpsertUser` per inbound is idempotent. -/
theorem upsertUser_inbound_idem (enc : String → String → String) (ib : Inbound) (user : User) :
    Inbound.upsertUser enc (Inbound.upsertUser enc ib (some user)) (some user) =
      Inbound.upsertUser enc ib (some user) := by
  cases hex : ib.exclude with
  | true =>
    have h1 : Inbound.upsertUser enc ib (some user) = ib := by
      rw [upsertUser_inbound_eq]; simp [hex]
    rw [h1]; exact h1
  | false =>
    rw [upsertUser_inbound_eq enc ib user]
    simp only [hex, Bool.false_eq_true, if_false]
    rw [upsertUser_inbound_eq]
    simp [hex, List.filter_append, List.filter_filter, Bool.and_self,
          optAccount_filter_nil, ensureUsersLocked]

/-- C6 counterexample: the claim's "no inbound ever holds two accounts with
the same identity after the second call" fails.  `cfgDup` holds one
non-excluded vmess inbound whose document account list already contains two
accounts with identity `b@x`; after `UpsertUser(vmessUser)` twice, the
inbound still holds both `b@x` accounts (the call only removes accounts
matching the upserted user's own email `a@x`). -/
theorem upsertUser_duplicate_identities :
    ((Config.upsertUser encId (Config.upsertUser encId cfgDup (some vmessUser))
        (some vmessUser)).inbounds.map
      (fun ib => (ensureUsersLocked ib.users).countP
        (fun a => accountName a == "b@x"))) = [2] := by
  rfl

/-- C6 (amended): `UpsertUser(u)` applied twice with identical membership
yields the same account lists in every inbound as applying it once
(idempotence); in particular, after the second call no NON-excluded inbound
holds two accounts whose identity equals `u`'s email.  (Pre-existing
document accounts with other identities, and accounts inside excluded
inbounds, are not touched, so the original blanket no-duplicate statement
fails.) -/
theorem upsertUser_idempotent (enc : String → String → String) (c : Config) (user : User) :
    Config.upsertUser enc (Config.upsertUser enc c (some user)) (some user) =
      Config.upsertUser enc c (some user) ∧
    ∀ ib, ib ∈ (Config.upsertUser enc (Config.upsertUser enc c (some user))
        (some user)).inbounds →
      ib.exclude = false →
      (ensureUsersLocked ib.users).countP (fun a => accountName a == user.email) ≤ 1 := by
  have hmaps : (c.inbounds.map (fun i => Inbound.upsertUser enc i (some user))).map
      (fun i => Inbound.upsertUser enc i (some user)) =
      c.inbounds.map (fun i => Inbound.upsertUser enc i (some user)) := by
    rw [List.map_map]
    apply List.map_congr_left
    intro ib hmem
    exact upsertUser_inbound_idem enc ib user
  have hidem : Config.upsertUser enc (Config.upsertUser enc c (some user)) (some user) =
      Config.upsertUser enc c (some user) := by
    simp [Config.upsertUser, hmaps]
  refine ⟨hidem, ?_⟩
  intro ib hmem hex
  rw [hidem] at hmem
  rcases List.mem_map.mp hmem with ⟨ib0, hib0, rfl⟩
  cases h0 : ib0.exclude with
  | true =>
    rw [upsertUser_inbound_eq] at hex
    simp [h0] at hex
  | false =>
    rw [upsertUser_inbound_eq]
    simp only [h0, Bool.false_eq_true, if_false]
    have hcnt0 : ((ensureUsersLocked ib0.users).filter
        (fun a => !(accountName a == user.email))).countP
        (fun a => accountName a == user.email) = 0 := by
      rw [List.countP_filter]
      simp
    have hlen : (if specMember (some user) ib0.tag then
        (specAccount enc ib0.protocol (some user)).toList else []).length ≤ 1 := by
      cases specMember (some user) ib0.tag with
      | false => simp
      | true =>
        cases specAccount enc ib0.protocol (some user) <;> simp [Option.toList]
    calc (ensureUsersLocked (UsersVal.stored (((ensureUsersLocked ib0.users).filter
            (fun a => !(accountName a == user.email))) ++
          (if specMember (some user) ib0.tag then
            (specAccount enc ib0.protocol (some user)).toList else [])))).countP
            (fun a => accountName a == user.email)
        = ((ensureUsersLocked ib0.users).filter
            (fun a => !(accountName a == user.email))).countP
            (fun a => accountName a == user.email) +
          (if specMember (some user) ib0.tag then
            (specAccount enc ib0.protocol (some user)).toList else []).countP
            (fun a => accountName a == user.email) := by
          simp [ensureUsersLocked, List.countP_append]
      _ ≤ 0 + (if specMember (some user) ib0.tag then
            (specAccount enc ib0.protocol (some user)).toList else []).length := by
          rw [hcnt0]
          exact Nat.add_le_add_left (List.countP_le_length _) 0
      _ ≤ 1 := by omega

/-- C6 witness: the idempotence theorem applied to the concrete
configuration `cfgDup` and user `vmessUser`. -/
theorem upsertUser_idempotent_w :
    Config.upsertUser encId (Config.upsertUser encId cfgDup (some vmessUser))
        (some vmessUser) =
      Config.upsertUser encId cfgDup (some vmessUser) ∧
    (ensureUsersLocked dupInboundAfter.users).countP
      (fun a => accountName a == vmessUser.email) ≤ 1 := by
  have h := upsertUser_idempotent encId cfgDup vmessUser
  refine ⟨h.1, h.2 dupInboundAfter ?_ rfl⟩
  have hl : (Config.upsertUser encId (Config.upsertUser encId cfgDup (some vmessUser))
      (some vmessUser)).inbounds = [dupInboundAfter] := rfl
  rw [hl]
  exact List.mem_singleton.mpr rfl

/-- C5 counterexample: on a supervisor with a live subprocess handle
(`liveCore`, whose config file is absent), a `Start` call fails with the
already-running error yet DOES mutate state: the config file on disk is
rewritten before the liveness check, so the resulting supervisor state
differs from the original. -/
theorem Start_mutates_config_file :
    (Core.Start okEnv liveCore emptyCfg).2 = Outcome.err CoreError.alreadyRunning ∧
    liveCore.configFile = none ∧
    (Core.Start okEnv liveCore emptyCfg).1.configFile = some emptyCfg ∧
    ¬((Core.Start okEnv liveCore emptyCfg).1 = liveCore) := by
  refine ⟨rfl, rfl, rfl, ?_⟩
  intro hEq
  exact Option.noConfusion (congrArg Core.configFile hEq)

/-- C5 (amended): on a supervisor with a live subprocess handle, a `Start`
call whose serialization and config-file write succeed fails with the
already-running error; the live handle, start timestamp, cancellation scope
and all other in-memory fields are unchanged, but the configuration file is
rewritten with the new config before the liveness check. -/
theorem Start_already_running (env : StartEnv) (c : Core) (cfg : Config)
    (h : c.process.isSome = true) (hs : env.serializeOk = true) (hw : env.writeOk = true) :
    Core.Start env c cfg =
      ({ c with configFile := some cfg }, Outcome.err CoreError.alreadyRunning) := by
  simp [Core.Start, hs, hw, h]

/-- C5 witness: the amended theorem applied to `liveCore` under `okEnv`. -/
theorem Start_already_running_w :
    Core.Start okEnv liveCore emptyCfg =
      ({ liveCore with configFile := some emptyCfg },
       Outcome.err CoreError.alreadyRunning) :=
  Start_already_running okEnv liveCore emptyCfg rfl rfl rfl

/-- `Core.Start` can never return the already-restarting error. -/
theorem Start_ne_alreadyRestarting (env : StartEnv) (c : Core) (cfg : Config) :
    (Core.Start env c cfg).2 ≠ Outcome.err CoreError.alreadyRestarting := by
  unfold Core.Start
  repeat' split
  all_goals by_cases hp : c.process.isSome = true <;> simp [hp]

/-- C10: the restart in-flight flag is cleared on every exit path of
`Restart` (the deferred clear also runs when the `Start` phase fails, since
`env` ranges over failing environments too), so a later `Restart` is never
rejected with the already-restarting error because of an earlier `Restart`
that already returned. -/
theorem Restart_fst_restarting_false (env : StartEnv) (c : Core) (cfg : Config)
    (h : c.restarting = false) :
    (Core.Restart env c cfg).1.restarting = false := by
  unfold Core.Restart
  rw [h]
  simp

theorem Restart_snd_ne_alreadyRestarting (env : StartEnv) (c : Core) (cfg : Config)
    (h : c.restarting = false) :
    (Core.Restart env c cfg).2 ≠ Outcome.err CoreError.alreadyRestarting := by
  unfold Core.Restart
  rw [h]
  exact Start_ne_alreadyRestarting env (Core.Stop { c with restarting := true }) cfg

theorem Restart_clears_inflight_flag (env env2 : StartEnv) (c : Core) (cfg cfg2 : Config)
    (h : c.restarting = false) :
    (Core.Restart env c cfg).1.restarting = false ∧
    (Core.Restart env2 (Core.Restart env c cfg).1 cfg2).2 ≠
      Outcome.err CoreError.alreadyRestarting :=
  ⟨Restart_fst_restarting_false env c cfg h,
   Restart_snd_ne_alreadyRestarting env2 (Core.Restart env c cfg).1 cfg2
     (Restart_fst_restarting_false env c cfg h)⟩

/-- C10 witness: the flag-clearing theorem at a concrete supervisor with a
failing spawn in the first restart. -/
theorem Restart_clears_inflight_flag_w :
    (Core.Restart spawnFailEnv idleCore emptyCfg).1.restarting = false ∧
    (Core.Restart okEnv (Core.Restart spawnFailEnv idleCore emptyCfg).1 emptyCfg).2 ≠
      Outcome.err CoreError.alreadyRestarting :=
  Restart_clears_inflight_flag spawnFailEnv okEnv idleCore emptyCfg emptyCfg rfl

/-- C9: after `Shutdown`, `Version` returns the empty string and `Started`
returns `false` (both are guarded on the cleared core handle), but a
subsequent `SyncUser` or `SyncUsers` dereferences the cleared (nil) core
handle when invoking `Restart` — a panic, not an error return. -/
theorem Shutdown_guards_and_sync_nil_deref (enc : String → String → String)
    (env : StartEnv) (s : SingBox) (u : User) (users : List (Option User)) :
    SingBox.Version (SingBox.Shutdown s) = "" ∧
    SingBox.Started (SingBox.Shutdown s) = false ∧
    (SingBox.SyncUser enc env (SingBox.Shutdown s) (some u)).2 = Outcome.nilDeref ∧
    (SingBox.SyncUsers enc env (SingBox.Shutdown s) users).2 = Outcome.nilDeref := by
  cases s with
  | mk config core =>
    cases core <;>
      simp [SingBox.Shutdown, SingBox.Version, SingBox.Started,
            SingBox.SyncUser, SingBox.SyncUsers]

/-- C3: the body of the stats-sampler loop contains no timer wait at all —
the loop is a tight poll guarded only by a cancellation check (zero delay
between consecutive samplings), unlike the keepalive watchdog, whose body
waits on a 5-second ticker.  This contradicts the claimed fixed delay
interval; the spec itself flags the tight loop as a latent bug. -/
theorem recordSystemStats_unthrottled :
    waitSeconds recordSystemStatsBody = 0 ∧
    recordSystemStatsBody =
      [LoopEff.cancelCheck, LoopEff.sampleSystemStats, LoopEff.storeSnapshot] ∧
    waitSeconds keepAliveTrackerBody = 5 := by
  exact ⟨rfl, rfl, rfl⟩

theorem rstep_preserves_RInv (who : Bool) (s : RSys) (h : RInv s) : RInv (rstep who s) := by
  obtain ⟨hr, hx⟩ := h
  cases who <;>
    cases h0 : s.ph0 <;> cases h1 : s.ph1 <;>
      simp_all [rstep, phaseOf, setPhase, inCycle, RInv]

theorem rrun_preserves_RInv (sched : List Bool) (s : RSys) (h : RInv s) :
    RInv (rrun sched s) := by
  induction sched generalizing s with
  | nil => exact h
  | cons w ws ih => exact ih (rstep w s) (rstep_preserves_RInv w s h)

theorem RInv_rinit : RInv rinit := by
  constructor <;> simp [rinit, inCycle]

/-- C4: while a `Restart` is in flight (the flag is set), any other
`Restart` on the same supervisor returns immediately with the rejection,
leaving the event log (no stop, no start) and the flag untouched; and in
every interleaving of two concurrent `Restart` calls, at most one caller is
ever inside the stop/start cycle. -/
theorem Restart_mutual_exclusion :
    (∀ (s : RSys) (who : Bool), phaseOf s who = RPhase.ready → s.restarting = true →
      rstep who s = setPhase s who RPhase.rejected ∧
      (rstep who s).events = s.events ∧ (rstep who s).restarting = s.restarting) ∧
    (∀ sched : List Bool,
      ¬(inCycle (rrun sched rinit).ph0 = true ∧ inCycle (rrun sched rinit).ph1 = true)) := by
  constructor
  · intro s who hph hr
    have hstep : rstep who s = setPhase s who RPhase.rejected := by
      unfold rstep
      rw [hph]
      simp [hr]
    refine ⟨hstep, ?_, ?_⟩ <;> rw [hstep] <;> cases who <;> simp [setPhase]
  · intro sched
    exact (rrun_preserves_RInv sched rinit RInv_rinit).2

/-- C4 witness: the rejection branch at a concrete in-flight state, and
mutual exclusion for a concrete schedule. -/
theorem Restart_mutual_exclusion_w :
    (rstep false inflightState = setPhase inflightState false RPhase.rejected) ∧
    ¬(inCycle (rrun [false, true, false] rinit).ph0 = true ∧
      inCycle (rrun [false, true, false] rinit).ph1 = true) :=
  ⟨(Restart_mutual_exclusion.1 inflightState false rfl rfl).1,
   Restart_mutual_exclusion.2 [false, true, false]⟩

/-- C7: constructing the configuration synchronizer fails — and nothing is
created — exactly when the document is empty/whitespace, fails to unmarshal
into a JSON object, or lacks a top-level `inbounds` array; otherwise
construction succeeds. -/
theorem NewSingBoxConfig_ok_iff (config : String) (parsed : Option (List (String × Json)))
    (exclude : List String) :
    (∃ cfg, NewSingBoxConfig config parsed exclude = Except.ok cfg) ↔
      (¬(config.trim = "") ∧ ∃ raw, parsed = some raw ∧
        ∃ l, raw.lookup "inbounds" = some (Json.arr l)) := by
  unfold NewSingBoxConfig
  by_cases ht : config.trim = ""
  · simp [ht]
  · cases parsed with
    | none => simp [ht]
    | some raw =>
      cases hl : raw.lookup "inbounds" with
      | none => simp [ht, hl]
      | some j => cases j <;> simp [ht, hl]

theorem takeDigits_all (l : List Char) : ((takeDigits l).1).all Char.isDigit = true := by
  induction l with
  | nil => rfl
  | cons c rest ih =>
    cases hc : c.isDigit <;> simp [takeDigits, hc, ih]

theorem takeDigits_append_nondigit (ds : List Char) (c : Char) (r : List Char)
    (hds : ds.all Char.isDigit = true) (hc : c.isDigit = false) :
    takeDigits (ds ++ c :: r) = (ds, c :: r) := by
  induction ds with
  | nil => simp [takeDigits, hc]
  | cons d ds ih =>
    simp only [List.all_cons, Bool.and_eq_true] at hds
    simp [takeDigits, hds.1, ih hds.2]

theorem takeDigits_all_digits (ds : List Char) (hds : ds.all Char.isDigit = true) :
    takeDigits ds = (ds, []) := by
  induction ds with
  | nil => rfl
  | cons d ds ih =>
    simp only [List.all_cons, Bool.and_eq_true] at hds
    simp [takeDigits, hds.1, ih hds.2]

theorem isDottedTriple_build (d1 d2 d3 : List Char)
    (h1 : d1.all Char.isDigit = true) (h2 : d2.all Char.isDigit = true)
    (h3 : d3.all Char.isDigit = true)
    (n1 : d1.isEmpty = false) (n2 : d2.isEmpty = false) (n3 : d3.isEmpty = false) :
    isDottedTriple (d1 ++ '.' :: (d2 ++ '.' :: d3)) = true := by
  unfold isDottedTriple
  rw [takeDigits_append_nondigit d1 '.' (d2 ++ '.' :: d3) h1 (by decide)]
  simp only
  rw [takeDigits_append_nondigit d2 '.' d3 h2 (by decide)]
  simp only
  rw [takeDigits_all_digits d3 h3]
  simp [n1, n2, n3]

theorem matchTriple_shape (l m : List Char) (h : matchTriple l = some m) :
    isDottedTriple m = true := by
  unfold matchTriple at h
  split at h
  · rename_i d1 r2 heq1
    split_ifs at h with he1
    · split at h
      · rename_i d2 r4 heq2
        split_ifs at h with he2 he3
        injection h with hm
        subst hm
        have hd1 : d1.all Char.isDigit = true := by
          have := takeDigits_all l
          rw [heq1] at this
          exact this
        have hd2 : d2.all Char.isDigit = true := by
          have := takeDigits_all r2
          rw [heq2] at this
          exact this
        have hd3 := takeDigits_all r4
        rw [Bool.not_eq_true] at he1 he2 he3
        exact isDottedTriple_build d1 d2 ((takeDigits r4).1) hd1 hd2 hd3 he1 he2 he3
      · simp at h
  · simp at h

theorem findTripleAux_shape (l m : List Char) (h : findTripleAux l = some m) :
    isDottedTriple m = true := by
  induction l with
  | nil => simp [findTripleAux] at h
  | cons c rest ih =>
    unfold findTripleAux at h
    cases hm : matchTriple (c :: rest) with
    | some r =>
      rw [hm] at h
      simp only [Option.some.injEq] at h
      exact h ▸ matchTriple_shape (c :: rest) r hm
    | none =>
      rw [hm] at h
      exact ih h

/-- C8: at supervisor construction the version string is computed by
running the executable with a version argument; the first dotted-triple
numeric substring of the combined output is used (every returned match has
the `digits.digits.digits` shape), the trimmed raw output when there is no
such substring, and a failure to run the executable aborts construction
with the error (no supervisor is created). -/
theorem NewSingBoxCore_version_detection (exe assets dir : String) (n : Nat)
    (runResult : Except String String) :
    (∀ e, runResult = Except.error e →
      NewSingBoxCore exe assets dir n runResult = Except.error e) ∧
    (∀ output, runResult = Except.ok output →
      ∃ core, NewSingBoxCore exe assets dir n runResult = Except.ok core ∧
        core.version = (match findVersionTriple output with
                        | some m => m
                        | none => output.trim) ∧
        ∀ m, findVersionTriple output = some m → isDottedTriple m.data = true) := by
  constructor
  · intro e he
    subst he
    rfl
  · intro output ho
    subst ho
    have hred : NewSingBoxCore exe assets dir n (Except.ok output) =
        Except.ok { executablePath := exe, assetsPath := assets, configDir := dir,
                    logBufferSize := n, process := none, restarting := false,
                    hasCancel := false, startTime := 0,
                    version := (match findVersionTriple output with
                                | some m => m
                                | none => output.trim),
                    configFile := none } := by
      unfold NewSingBoxCore refreshVersion
      cases h : findVersionTriple output <;> simp [h]
    refine ⟨_, hred, rfl, ?_⟩
    intro m2 hm2
    unfold findVersionTriple at hm2
    rcases Option.map_eq_some'.mp hm2 with ⟨lm, hlm, rfl⟩
    exact findTripleAux_shape output.data lm hlm

/-- C8 witness: version detection on a concrete output line containing a
dotted triple. -/
theorem NewSingBoxCore_version_detection_w :
    ∃ core, NewSingBoxCore "sing-box" "assets" "generated" 10
        (Except.ok "sing-box version 1.11.3") = Except.ok core ∧
      core.version = "1.11.3" := by
  obtain ⟨core, hc, hv, hs⟩ :=
    (NewSingBoxCore_version_detection "sing-box" "assets" "generated" 10
      (Except.ok "sing-box version 1.11.3")).2 "sing-box version 1.11.3" rfl
  refine ⟨core, hc, ?_⟩
  rw [hv]
  rfl
